import Mathlib

/-!
Verification of the OpenPlasma transaction-application and proof-circuit layer.

The development shallowly embeds the two core source files:
  * `src/circuits/src/data_structs/offchain_withdrawal.rs`
    (`OffchainWithdrawal`: hash, sign, verify_signature,
    update_tree_and_record_state), and
  * `src/circuits/src/deposit_circuit.rs`
    (`DepositCircuit::process_deposit`, `DepositBatchCircuit::synthesize`).

Collaborator code of the repository that is not part of the provided core
(the `AccountsTree`, the `AccountState` record, the in-circuit
`AccountCircuit` gadget, `check_decomposition_le`, and the numeric helpers
`usize_to_fr` / `fr_to_usize` / `fr_to_bytes_le`) is modelled from the
specification, as marked on each definition.  External cryptographic
primitives (the Poseidon permutation and the raw-message EdDSA signature
primitive) are parameters of the development: theorems that need their
contracts take those contracts as hypotheses.

Field elements of the BN256 scalar field are represented as `Nat`, with the
modulus applied explicitly where the code's field arithmetic matters.
Machine integers (`usize`) are `Nat`; a subtraction that would underflow in
Rust aborts the surrounding operation, which the embedding models by
`Option` (a `none` result stands for a Rust panic — an `assert!` failure or
an arithmetic-overflow abort).
-/

/-- The modulus of the BN256 scalar field `Fr` (a fixed constant of the
`pairing_ce` collaborator crate). -/
def pBN : Nat :=
  21888242871839275222246405745257275088548364400416034343698204186575808495617

/-- `2 ^ 64`, the number of values of the Rust `usize` type on the 64-bit
targets this code runs on. -/
def USIZE : Nat := 2 ^ 64

/-- `NUM_BYTES_TO_SIGN` from `offchain_withdrawal.rs`: withdrawal digests are
serialized to 31 bytes before signing. -/
def NUM_BYTES_TO_SIGN : Nat := 31

/-- Modelled from the spec: `usize_to_fr` (from `utils/utils.rs`, not among
the provided sources) casts a machine integer into the field; balances are
"non-negative integers encoded into the field". -/
def usize_to_fr (n : Nat) : Nat := n % pBN

/-- Modelled from the spec: `fr_to_usize` (from `utils/utils.rs`, not among
the provided sources) reads a field element that encodes a machine integer
back as a `usize` (the low 64 bits of its integer representative). -/
def fr_to_usize (x : Nat) : Nat := x % USIZE

/-- Modelled from the spec: `fr_to_bytes_le` (from `utils/utils.rs`, not
among the provided sources) serializes a field element to a fixed-width
little-endian byte string. -/
def fr_to_bytes_le (x : Nat) (len : Nat) : List Nat :=
  (List.range len).map (fun i => x / 256 ^ i % 256)

/-- The fixed-generator labels of the `sapling_crypto_ce::jubjub`
collaborator crate; the withdrawal code uses only
`SpendingKeyGenerator` (domain separation for spend authorization). -/
inductive FixedGenerators where
  | ProofGenerationKey
  | NoteCommitmentRandomness
  | NullifierPosition
  | ValueCommitmentValue
  | ValueCommitmentRandomness
  | SpendingKeyGenerator
deriving DecidableEq, Repr

/-- Modelled from the spec: one account of the Accounts Tree — a public key
(two field coordinates), a nonce and a balance (field elements encoding
non-negative integers).  The tree file `tree/account.rs` is not among the
provided sources. -/
structure Account where
  pubkey : Nat × Nat
  nonce : Nat
  balance : Nat
deriving DecidableEq, Repr

/-- The default account value (used only as the `getD` default below; every
guarded access stays in bounds, so it is never observed). -/
def emptyAccount : Account := ⟨(0, 0), 0, 0⟩

/-- Modelled from the spec: the `AccountsTree` collaborator — an ordered
sequence of accounts plus a Merkle accumulator over them.  The accumulator's
internal hashing is out of scope; the authentication path is represented by
an abstract pure function of the current leaves (the spec's invariant:
"root is a pure function of all leaves"), and the index bits by a pure
function of the position alone. -/
structure AccountsTree where
  accounts : List Account
  pathFn : List Account → Nat → List Nat
  idxFn : Nat → List Bool

/-- Modelled from the spec: `get_leaf_path(i)` — the ordered sibling hashes
for leaf `i`, derived from the current leaves. -/
def AccountsTree.get_leaf_path (t : AccountsTree) (i : Nat) : List Nat :=
  t.pathFn t.accounts i

/-- Modelled from the spec: `get_leaf_indices(i)` — the ordered index bits of
leaf position `i`. -/
def AccountsTree.get_leaf_indices (t : AccountsTree) (i : Nat) : List Bool :=
  t.idxFn i

/-- Modelled from the spec: `update_balance(i, new_balance)` overwrites the
balance of account `i` (the accumulator's internal nodes are recomputed by
the collaborator, reflected here through `pathFn` being applied to the new
leaves). -/
def AccountsTree.update_balance (t : AccountsTree) (i : Nat) (b : Nat) :
    AccountsTree :=
  let a := t.accounts.getD i emptyAccount
  { t with accounts := t.accounts.set i { a with balance := b } }

/-- Modelled from the spec: `update_account(i, pubkey, new_nonce)` overwrites
the public key and nonce of account `i`. -/
def AccountsTree.update_account (t : AccountsTree) (i : Nat)
    (pk : Nat × Nat) (n : Nat) : AccountsTree :=
  let a := t.accounts.getD i emptyAccount
  { t with accounts := t.accounts.set i { a with pubkey := pk, nonce := n } }

/-- Modelled from the spec: the `AccountState` witness record from
`account.rs` (not among the provided sources) — the before/after snapshot of
one leaf transition; all fields are optional because the same structure also
describes circuits in key-generation mode. -/
structure AccountState where
  old_balance : Option Nat
  new_balance : Option Nat
  old_pubkey : Option (Nat × Nat)
  new_pubkey : Option (Nat × Nat)
  old_nonce : Option Nat
  new_nonce : Option Nat
  account_path : List (Option Nat)
  account_indices : List (Option Bool)
deriving DecidableEq, Repr

/-- `OffchainWithdrawal` from `offchain_withdrawal.rs`: a client-authored
withdrawal request.  The signature type of the collaborator crate is a type
parameter. -/
structure OffchainWithdrawal (Sig : Type) where
  account_id : Nat
  amount : Nat
  nonce : Nat
  sign : Option Sig

/-- `OffchainWithdrawal::hash`: the Poseidon digest of
`(account_id, amount, nonce)`, each cast to the field.  The Poseidon
permutation is the collaborator parameter `phash` (applied to the hash
parameters and the ordered input list, returning the first element of the
output vector). -/
def OffchainWithdrawal.hash {Sig HP : Type} (w : OffchainWithdrawal Sig)
    (phash : HP → List Nat → Nat) (hash_params : HP) : Nat :=
  phash hash_params
    [usize_to_fr w.account_id, usize_to_fr w.amount, usize_to_fr w.nonce]

/-- `OffchainWithdrawal::sign`: computes the digest, serializes it to
`NUM_BYTES_TO_SIGN` little-endian bytes, and signs those bytes with the
spending-key generator, storing the result in the `sign` field.  The raw
signing primitive of the collaborator crate is the parameter
`sign_raw_message` (receiver key, message bytes, randomness, generator,
curve parameters, byte count). -/
def OffchainWithdrawal.sign_op {Sig SK R HP CP : Type}
    (w : OffchainWithdrawal Sig)
    (sign_raw_message : SK → List Nat → R → FixedGenerators → CP → Nat → Sig)
    (phash : HP → List Nat → Nat)
    (seckey : SK) (hash_params : HP) (sign_params : CP) (rng : R) :
    OffchainWithdrawal Sig :=
  let hash := w.hash phash hash_params
  let hash_bytes := fr_to_bytes_le hash NUM_BYTES_TO_SIGN
  { w with sign := some (sign_raw_message seckey hash_bytes rng
      FixedGenerators.SpendingKeyGenerator sign_params NUM_BYTES_TO_SIGN) }

/-- `OffchainWithdrawal::verify_signature`: recomputes the digest and byte
encoding exactly as `sign` does and checks the stored signature against the
supplied public key with the same generator.  The source unwraps
`self.sign` (`self.sign.clone().unwrap()`), which panics when no signature
was ever attached; the embedding returns `none` for that panic and
`some b` for the primitive's boolean verdict `b`. -/
def OffchainWithdrawal.verify_signature {Sig PK HP CP : Type}
    (w : OffchainWithdrawal Sig)
    (verify_for_raw_message :
      PK → List Nat → Sig → FixedGenerators → CP → Nat → Bool)
    (phash : HP → List Nat → Nat)
    (pubkey : PK) (hash_params : HP) (sign_params : CP) : Option Bool :=
  let hash := w.hash phash hash_params
  let hash_bytes := fr_to_bytes_le hash NUM_BYTES_TO_SIGN
  w.sign.map (fun s => verify_for_raw_message pubkey hash_bytes s
    FixedGenerators.SpendingKeyGenerator sign_params NUM_BYTES_TO_SIGN)

/-- `OffchainWithdrawal::update_tree_and_record_state`: applies the
withdrawal to the tree and returns the before/after witness snapshot.
The source's sequence is mirrored exactly: bound assertion on `account_id`;
read of the old balance and balance assertion; computation of the new
balance; reads of the public key and old nonce; nonce assertion against
`self.nonce - 1` (a `usize` subtraction, which aborts when `self.nonce = 0`);
reads of the authentication path and index bits; then — only after every
assertion — `update_balance` followed by `update_account` (whose public-key
argument the source re-reads from the tree after the balance update).
A `none` result models the Rust panic of a failed assertion or of the
underflowing subtraction; in that case no mutated tree is produced. -/
def OffchainWithdrawal.update_tree_and_record_state {Sig : Type}
    (w : OffchainWithdrawal Sig) (tree : AccountsTree) :
    Option (AccountState × AccountsTree) :=
  if w.account_id < tree.accounts.length then
    let old_balance := (tree.accounts.getD w.account_id emptyAccount).balance
    if w.amount ≤ fr_to_usize old_balance then
      let new_balance := usize_to_fr (fr_to_usize old_balance - w.amount)
      let pubkey := (tree.accounts.getD w.account_id emptyAccount).pubkey
      let old_nonce := (tree.accounts.getD w.account_id emptyAccount).nonce
      if 1 ≤ w.nonce ∧ fr_to_usize old_nonce = w.nonce - 1 then
        let new_nonce := usize_to_fr w.nonce
        let account_path := tree.get_leaf_path w.account_id
        let account_indices := tree.get_leaf_indices w.account_id
        let tree1 := tree.update_balance w.account_id new_balance
        let tree2 := tree1.update_account w.account_id
          (tree1.accounts.getD w.account_id emptyAccount).pubkey new_nonce
        some ({ old_balance := some old_balance
                new_balance := some new_balance
                old_pubkey := some pubkey
                new_pubkey := some pubkey
                old_nonce := some old_nonce
                new_nonce := some new_nonce
                account_path := account_path.map some
                account_indices := account_indices.map some }, tree2)
      else none
    else none
  else none

/-- Concrete fixture: the spec's scenario withdrawal
`{account_id: 5, amount: 40, nonce: 4}` (no signature attached; the
signature type is irrelevant to tree application). -/
def w0 : OffchainWithdrawal Unit := ⟨5, 40, 4, none⟩

/-- Concrete fixture: account 5 with public key `(7, 8)`, nonce `3` and
balance `100`. -/
def acct5 : Account := ⟨(7, 8), 3, 100⟩

/-- Concrete fixture: a six-account tree whose account 5 is `acct5`; the
abstract Merkle functions are trivial. -/
def tree0 : AccountsTree :=
  ⟨[emptyAccount, emptyAccount, emptyAccount, emptyAccount, emptyAccount,
    acct5], fun _ _ => [], fun _ => []⟩

/-- Concrete fixture: the `AccountState` snapshot produced by applying `w0`
to `tree0`. -/
def st0 : AccountState :=
  ⟨some 100, some 60, some (7, 8), some (7, 8), some 3, some 4, [], []⟩

/-- Concrete fixture: `tree0` after applying `w0` (balance 60, nonce 4). -/
def tree20 : AccountsTree :=
  ⟨[emptyAccount, emptyAccount, emptyAccount, emptyAccount, emptyAccount,
    ⟨(7, 8), 4, 60⟩], fun _ _ => [], fun _ => []⟩

/-- Concrete fixture: a withdrawal asking for more (`200`) than account 5's
balance (`100`). -/
def wbad : OffchainWithdrawal Unit := ⟨5, 200, 4, none⟩

/-- Concrete fixture: a withdrawal with nonce `0`. -/
def wz : OffchainWithdrawal Unit := ⟨5, 40, 0, none⟩

/-- Concrete fixture: the scenario withdrawal with `List Nat` as the
signature type (for the trivial instantiation of the primitives). -/
def wsig : OffchainWithdrawal (List Nat) := ⟨5, 40, 4, none⟩

/-- Concrete fixture: the scenario withdrawal carrying a (trivial) stored
signature. -/
def wsigned : OffchainWithdrawal Unit := ⟨5, 40, 4, some ()⟩

/-- The constraints a deposit step emits into the `bellman_ce` constraint
system.  `r1cs a b c` is an enforced rank-1 constraint `A * B = C` whose
linear combinations are lists of variables with coefficient one (every
`cs.enforce` in the embedded sources has this shape); variable `0` is the
system's fixed `CS::one()`.  The remaining constructors stand for the
constraint groups of collaborator gadgets, recording exactly which variables
they bind; their satisfaction semantics is a parameter (`GadgetSem`). -/
inductive Constraint where
  | r1cs (a b c : List Nat)
  | poseidonC (out : Nat) (inputs : List Nat)
  | decompC (x : Nat) (bits : List Nat)
  | accountC (old_leaf new_leaf indices : List Nat)
  | oldRootC (root : Nat) (old_leaf indices : List Nat)
  | newRootC (root : Nat) (new_leaf indices : List Nat)
deriving DecidableEq, Repr

/-- The constraint-system state: the next free variable index, the public
input variables in allocation order, and the emitted constraints in order.
Variable `0` is reserved for `CS::one()`. -/
structure CSState where
  nextVar : Nat
  inputs : List Nat
  constraints : List Constraint
deriving DecidableEq, Repr

/-- The fresh constraint system handed to `Circuit::synthesize`. -/
def initState : CSState := ⟨1, [], []⟩

/-- `AllocatedNum::alloc`: allocates one fresh variable.  (The witness-value
closure of the source only computes the variable's assignment and does not
influence the emitted constraints, so it is not part of the embedding.) -/
def allocVar (s : CSState) : Nat × CSState :=
  (s.nextVar, { s with nextVar := s.nextVar + 1 })

/-- `AllocatedNum::inputize`: marks a variable as the next public input. -/
def inputize (v : Nat) (s : CSState) : CSState :=
  { s with inputs := s.inputs ++ [v] }

/-- Appends one emitted constraint. -/
def addConstraint (c : Constraint) (s : CSState) : CSState :=
  { s with constraints := s.constraints ++ [c] }

/-- `cs.enforce` with coefficient-one linear combinations. -/
def enforce (a b c : List Nat) (s : CSState) : CSState :=
  addConstraint (Constraint.r1cs a b c) s

/-- Modelled from the spec: the leaf and index allocations the
`AccountCircuit` collaborator gadget (from `account.rs`, not among the
provided sources) exposes — old and new leaf slots
`(pubkey x, pubkey y, nonce, balance)` in that fixed order, and the leaf
position's bit decomposition.  The source reaches them as
`account_circuit.accounts_tree.old_leaf_alloc` etc. -/
structure AccountCircuit where
  old_leaf_alloc : List Nat
  new_leaf_alloc : List Nat
  indices_alloc : List Nat
deriving DecidableEq, Repr

/-- Modelled from the spec: `AccountCircuit::new` allocates the two leaves'
four slots each and `account_depth` index bits, and emits the gadget's
internal leaf-hash/Merkle constraints over them (recorded as one
`accountC` group with parametric semantics). -/
def AccountCircuit.new (account_depth : Nat) (s : CSState) :
    AccountCircuit × CSState :=
  let n := s.nextVar
  let old_leaf_alloc := [n, n + 1, n + 2, n + 3]
  let new_leaf_alloc := [n + 4, n + 5, n + 6, n + 7]
  let indices_alloc := (List.range account_depth).map (fun i => n + 8 + i)
  let s1 : CSState :=
    ⟨n + 8 + account_depth, s.inputs,
      s.constraints
        ++ [Constraint.accountC old_leaf_alloc new_leaf_alloc indices_alloc]⟩
  (⟨old_leaf_alloc, new_leaf_alloc, indices_alloc⟩, s1)

/-- Modelled from the spec: `verify_old_root` emits the gadget's constraints
checking the old leaf against the supplied old-root variable along the
authentication path. -/
def AccountCircuit.verify_old_root (a : AccountCircuit) (root : Nat)
    (s : CSState) : CSState :=
  addConstraint (Constraint.oldRootC root a.old_leaf_alloc a.indices_alloc) s

/-- Modelled from the spec: `calc_new_root` allocates the circuit-computed
new-root variable and emits the gadget's constraints deriving it from the
new leaf along the authentication path. -/
def AccountCircuit.calc_new_root (a : AccountCircuit) (s : CSState) :
    Nat × CSState :=
  let (v, s1) := allocVar s
  (v, addConstraint (Constraint.newRootC v a.new_leaf_alloc a.indices_alloc)
    s1)

/-- Modelled from the spec: the in-circuit Poseidon collaborator gadget —
one allocated output whose value is the Poseidon hash of the ordered inputs,
with semantics identical to the out-of-circuit hash. -/
def poseidon_hash_gadget (inputs : List Nat) (s : CSState) : Nat × CSState :=
  let (v, s1) := allocVar s
  (v, addConstraint (Constraint.poseidonC v inputs) s1)

/-- Modelled from the spec: `check_decomposition_le` (from `utils/calc.rs`,
not among the provided sources) constrains `x` to equal the little-endian
base-2 recombination of the given bit variables. -/
def check_decomposition_le (x : Nat) (bits : List Nat) (s : CSState) :
    CSState :=
  addConstraint (Constraint.decompC x bits) s

/-- `DepositCircuit` from `deposit_circuit.rs`: the per-step witness bundle
(an `AccountState`, the claimed public key as affine coordinates, the
claimed account id and the amount).  The witness values feed only the
variables' assignments, not the emitted constraints. -/
structure DepositCircuit where
  account_state : AccountState
  pubkey : Option (Nat × Nat)
  account_id : Option Nat
  amount : Option Nat

/-- `DepositCircuit::process_deposit`: allocates the account gadget, the
claimed public-key coordinates, account id and amount; enforces the claimed
key against slots 0 and 1 of the *new* leaf, the account id against the
index bits, `old_leaf[3] + amount = new_leaf[3]` (balance) and
`old_leaf[2] = new_leaf[2]` (nonce); chains the accumulator through the
Poseidon gadget over `(old_hash, pubkey_x, pubkey_y, account_id, amount)`;
verifies the old root and computes the new root; and returns
`(new_hash, new_root)`. -/
def DepositCircuit.process_deposit (d : DepositCircuit)
    (account_depth : Nat) (old_hash old_root : Nat) (s : CSState) :
    (Nat × Nat) × CSState :=
  let (account_circuit, s) := AccountCircuit.new account_depth s
  let (pubkey_x_alloc, s) := allocVar s
  let (pubkey_y_alloc, s) := allocVar s
  let (account_id_alloc, s) := allocVar s
  let (amount_alloc, s) := allocVar s
  let s := enforce [pubkey_x_alloc] [0]
    [account_circuit.new_leaf_alloc.getD 0 0] s
  let s := enforce [pubkey_y_alloc] [0]
    [account_circuit.new_leaf_alloc.getD 1 0] s
  let s := check_decomposition_le account_id_alloc
    account_circuit.indices_alloc s
  let s := enforce [account_circuit.old_leaf_alloc.getD 3 0, amount_alloc]
    [0] [account_circuit.new_leaf_alloc.getD 3 0] s
  let s := enforce [account_circuit.old_leaf_alloc.getD 2 0] [0]
    [account_circuit.new_leaf_alloc.getD 2 0] s
  let (new_hash, s) := poseidon_hash_gadget
    [old_hash, pubkey_x_alloc, pubkey_y_alloc, account_id_alloc,
      amount_alloc] s
  let s := account_circuit.verify_old_root old_root s
  let (new_root, s) := account_circuit.calc_new_root s
  ((new_hash, new_root), s)

/-- `DepositBatchCircuit` from `deposit_circuit.rs`: the declared batch
size, the tree depth, the ordered deposit queue, and the four boundary
public-input values.  (The Poseidon parameter handle it also carries is
consumed only by the collaborator gadgets and has no counterpart in the
embedding.) -/
structure DepositBatchCircuit where
  deposit_batch : Nat
  account_depth : Nat
  deposit_queue : List DepositCircuit
  old_accum_hash : Option Nat
  new_accum_hash : Option Nat
  old_account_root : Option Nat
  new_account_root : Option Nat

/-- The source's `for` loop over the deposit queue: a left fold carrying the
running `(prev_hash, prev_root)` pair and the constraint-system state. -/
def synthLoop (account_depth : Nat) (queue : List DepositCircuit)
    (hr : Nat × Nat) (s : CSState) : (Nat × Nat) × CSState :=
  queue.foldl
    (fun acc d => d.process_deposit account_depth acc.1.1 acc.1.2 acc.2)
    (hr, s)

/-- Following the spec's words: "fold over the deposit sequence, feeding
each step's previous `(hash, root)` pair as the current step's
`(old_hash, old_root)`, keeping a running `(prev_hash, prev_root)`" — the
explicit accumulator-passing recursion the source's loop is compared
against. -/
def depositChain (account_depth : Nat) :
    List DepositCircuit → Nat × Nat → CSState → (Nat × Nat) × CSState
  | [], hr, s => (hr, s)
  | d :: rest, hr, s =>
    let (hr1, s1) := d.process_deposit account_depth hr.1 hr.2 s
    depositChain account_depth rest hr1 s1

/-- `DepositBatchCircuit::synthesize`: asserts
`deposit_batch == deposit_queue.len()` at entry (a fatal Rust assertion,
embedded as `none`), then allocates and inputizes the four public inputs in
order (old accumulator hash, new accumulator hash, old account root, new
account root), folds the deposit queue threading `(prev_hash, prev_root)`,
and finally enforces the running hash and root against the new-hash and
new-root input variables. -/
def DepositBatchCircuit.synthesize (b : DepositBatchCircuit)
    (s0 : CSState) : Option CSState :=
  if b.deposit_batch = b.deposit_queue.length then
    let (prev_hash, s1) := allocVar s0
    let s2 := inputize prev_hash s1
    let (new_hash, s3) := allocVar s2
    let s4 := inputize new_hash s3
    let (prev_root, s5) := allocVar s4
    let s6 := inputize prev_root s5
    let (new_root, s7) := allocVar s6
    let s8 := inputize new_root s7
    let (fin, s9) := synthLoop b.account_depth b.deposit_queue
      (prev_hash, prev_root) s8
    let s10 := enforce [fin.1] [0] [new_hash] s9
    let s11 := enforce [fin.2] [0] [new_root] s10
    some s11
  else none

/-- The satisfaction semantics of the collaborator gadgets' constraint
groups, a parameter of every satisfiability statement: the in-circuit
Poseidon function and the acceptance predicates of the account gadget's
internal, old-root and new-root constraint groups. -/
structure GadgetSem where
  poseidonF : List Nat → Nat
  accountOk : List Nat → List Nat → List Nat → Bool
  oldRootOk : Nat → List Nat → List Nat → Bool
  newRootOk : Nat → List Nat → List Nat → Bool

/-- A coefficient-one linear combination's value under an assignment. -/
def evalLC (asn : Nat → Nat) (lc : List Nat) : Nat := (lc.map asn).sum

/-- Whether one emitted constraint holds under an assignment, as an equation
over the field (values compared modulo `pBN`); gadget groups defer to the
parametric semantics. -/
def constraintHolds (g : GadgetSem) (asn : Nat → Nat) : Constraint → Bool
  | Constraint.r1cs a b c =>
    (evalLC asn a * evalLC asn b) % pBN == evalLC asn c % pBN
  | Constraint.poseidonC out inputs =>
    asn out % pBN == g.poseidonF (inputs.map asn) % pBN
  | Constraint.decompC x bits =>
    asn x % pBN
      == ((List.range bits.length).map
        (fun i => 2 ^ i * asn (bits.getD i 0))).sum % pBN
  | Constraint.accountC ol nl idx =>
    g.accountOk (ol.map asn) (nl.map asn) (idx.map asn)
  | Constraint.oldRootC r ol idx =>
    g.oldRootOk (asn r) (ol.map asn) (idx.map asn)
  | Constraint.newRootC r nl idx =>
    g.newRootOk (asn r) (nl.map asn) (idx.map asn)

/-- An assignment satisfies a constraint-system state when it gives
`CS::one()` the value `1` and every emitted constraint holds. -/
def Satisfies (g : GadgetSem) (asn : Nat → Nat) (s : CSState) : Prop :=
  asn 0 = 1 ∧ ∀ c ∈ s.constraints, constraintHolds g asn c = true

/-- Concrete fixture: a batch declaring size `1` with an empty queue — the
invariant `deposit_queue.length == deposit_batch` broken, everything else
unremarkable. -/
def bMismatch : DepositBatchCircuit := ⟨1, 1, [], none, none, none, none⟩

/-- Concrete fixture: an empty, well-formed batch (declared size `0`). -/
def bEmpty : DepositBatchCircuit := ⟨0, 1, [], some 9, some 9, some 11,
  some 11⟩

/-- Concrete fixture: the trivial gadget semantics (Poseidon constantly
zero, every gadget group accepting). -/
def g0 : GadgetSem :=
  ⟨fun _ => 0, fun _ _ _ => true, fun _ _ _ => true, fun _ _ _ => true⟩

/-- Concrete fixture: the assignment giving `CS::one()` the value `1` and
every other variable `0`. -/
def asn0 : Nat → Nat := fun v => if v = 0 then 1 else 0

/-- Concrete fixture: an `AccountState` with no witness data (circuit
key-generation mode). -/
def stEmpty : AccountState := ⟨none, none, none, none, none, none, [], []⟩

/-- Concrete fixture: a deposit step with no witness data. -/
def d0 : DepositCircuit := ⟨stEmpty, none, none, none⟩

/-- `getD` after `set` at the same in-bounds position returns the new
element. -/
theorem getD_set_self {α : Type} (l : List α) (i : Nat) (a d : α)
    (h : i < l.length) : (l.set i a).getD i d = a := by
  induction l generalizing i with
  | nil => simp at h
  | cons x xs ih =>
    cases i with
    | zero => rfl
    | succ n => simpa using ih n (by simpa using h)

/-- `update_balance` does not change the number of accounts. -/
theorem update_balance_length (t : AccountsTree) (i b : Nat) :
    (t.update_balance i b).accounts.length = t.accounts.length := by
  simp [AccountsTree.update_balance]

/-- Reading the updated leaf back after `update_balance`. -/
theorem update_balance_getD (t : AccountsTree) (i b : Nat)
    (h : i < t.accounts.length) :
    (t.update_balance i b).accounts.getD i emptyAccount
      = { t.accounts.getD i emptyAccount with balance := b } := by
  simp only [AccountsTree.update_balance]
  exact getD_set_self _ _ _ _ h

/-- Reading the updated leaf back after `update_account`. -/
theorem update_account_getD (t : AccountsTree) (i : Nat) (pk : Nat × Nat)
    (n : Nat) (h : i < t.accounts.length) :
    (t.update_account i pk n).accounts.getD i emptyAccount
      = { t.accounts.getD i emptyAccount with pubkey := pk, nonce := n } := by
  simp only [AccountsTree.update_account]
  exact getD_set_self _ _ _ _ h

/-- Casting a `usize` into the field and reading it back is the identity. -/
theorem fr_usize_roundtrip (n : Nat) (h : n < USIZE) :
    fr_to_usize (usize_to_fr n) = n := by
  unfold fr_to_usize usize_to_fr
  have hp : USIZE < pBN := by decide
  rw [Nat.mod_eq_of_lt (lt_trans h hp), Nat.mod_eq_of_lt h]

/-- C1: for every tree and withdrawal satisfying the preconditions (valid
leaf index, balance at least the amount, stored nonce equal to the request's
nonce minus one), `update_tree_and_record_state` succeeds; the returned
`AccountState`'s old fields and the recorded path/index bits equal the
pre-mutation leaf content, the leaf afterwards holds
`new_balance = old_balance - amount` and the request's nonce with the public
key unchanged, and the `AccountState`'s new fields equal the post-mutation
leaf content. -/
theorem update_tree_and_record_state_happy_path {Sig : Type}
    (w : OffchainWithdrawal Sig) (tree : AccountsTree)
    (hid : w.account_id < tree.accounts.length)
    (hbal : w.amount ≤
      fr_to_usize (tree.accounts.getD w.account_id emptyAccount).balance)
    (hn1 : 1 ≤ w.nonce)
    (hnon : fr_to_usize (tree.accounts.getD w.account_id emptyAccount).nonce
      = w.nonce - 1) :
    ∃ st tree2, w.update_tree_and_record_state tree = some (st, tree2) ∧
      st.old_balance
        = some (tree.accounts.getD w.account_id emptyAccount).balance ∧
      st.old_nonce
        = some (tree.accounts.getD w.account_id emptyAccount).nonce ∧
      st.old_pubkey
        = some (tree.accounts.getD w.account_id emptyAccount).pubkey ∧
      st.account_path = (tree.get_leaf_path w.account_id).map some ∧
      st.account_indices = (tree.get_leaf_indices w.account_id).map some ∧
      (tree2.accounts.getD w.account_id emptyAccount).balance
        = usize_to_fr
          (fr_to_usize (tree.accounts.getD w.account_id emptyAccount).balance
            - w.amount) ∧
      (tree2.accounts.getD w.account_id emptyAccount).nonce
        = usize_to_fr w.nonce ∧
      (tree2.accounts.getD w.account_id emptyAccount).pubkey
        = (tree.accounts.getD w.account_id emptyAccount).pubkey ∧
      st.new_balance
        = some (tree2.accounts.getD w.account_id emptyAccount).balance ∧
      st.new_nonce
        = some (tree2.accounts.getD w.account_id emptyAccount).nonce ∧
      st.new_pubkey
        = some (tree2.accounts.getD w.account_id emptyAccount).pubkey := by
  simp only [OffchainWithdrawal.update_tree_and_record_state]
  rw [if_pos hid, if_pos hbal, if_pos ⟨hn1, hnon⟩]
  refine ⟨_, _, rfl, rfl, rfl, rfl, rfl, rfl, ?_⟩
  have hlen1 : w.account_id <
      (tree.update_balance w.account_id
        (usize_to_fr (fr_to_usize
          (tree.accounts.getD w.account_id emptyAccount).balance
          - w.amount))).accounts.length := by
    rw [update_balance_length]; exact hid
  rw [update_account_getD _ _ _ _ hlen1,
    update_balance_getD _ _ _ hid]
  exact ⟨rfl, rfl, rfl, rfl, rfl, rfl⟩

/-- C5: violating any of the three preconditions (valid leaf index, balance
at least the amount, stored nonce equal to the request's nonce minus one —
the latter unsatisfiable for `nonce = 0`, whose `usize` subtraction aborts)
makes `update_tree_and_record_state` fail before any mutation: no updated
tree is produced. -/
theorem update_tree_and_record_state_rejects_bad_preconditions {Sig : Type}
    (w : OffchainWithdrawal Sig) (tree : AccountsTree)
    (h : ¬ (w.account_id < tree.accounts.length ∧
        w.amount ≤
          fr_to_usize (tree.accounts.getD w.account_id emptyAccount).balance ∧
        1 ≤ w.nonce ∧
        fr_to_usize (tree.accounts.getD w.account_id emptyAccount).nonce
          = w.nonce - 1)) :
    w.update_tree_and_record_state tree = none := by
  simp only [OffchainWithdrawal.update_tree_and_record_state]
  split_ifs with h1 h2 h3
  · exact absurd ⟨h1, h2, h3.1, h3.2⟩ h
  all_goals rfl

/-- C6: if `update_tree_and_record_state` succeeds once, the same withdrawal
object applied to the resulting tree violates the nonce precondition (the
leaf now stores the request's nonce, not the request's nonce minus one) and
the second application fails. -/
theorem update_tree_and_record_state_replay_fails {Sig : Type}
    (w : OffchainWithdrawal Sig) (tree : AccountsTree)
    (st : AccountState) (tree2 : AccountsTree)
    (hu : w.nonce < USIZE)
    (h : w.update_tree_and_record_state tree = some (st, tree2)) :
    fr_to_usize (tree2.accounts.getD w.account_id emptyAccount).nonce
      ≠ w.nonce - 1 ∧
    w.update_tree_and_record_state tree2 = none := by
  simp only [OffchainWithdrawal.update_tree_and_record_state] at h
  split_ifs at h with h1 h2 h3
  have htree2 : tree2 =
      (tree.update_balance w.account_id
        (usize_to_fr (fr_to_usize
          (tree.accounts.getD w.account_id emptyAccount).balance
          - w.amount))).update_account w.account_id
        ((tree.update_balance w.account_id
          (usize_to_fr (fr_to_usize
            (tree.accounts.getD w.account_id emptyAccount).balance
            - w.amount))).accounts.getD w.account_id emptyAccount).pubkey
        (usize_to_fr w.nonce) := by
    have := (Option.some.injEq _ _).mp h
    exact (congrArg Prod.snd this).symm
  have hlen1 : w.account_id <
      (tree.update_balance w.account_id
        (usize_to_fr (fr_to_usize
          (tree.accounts.getD w.account_id emptyAccount).balance
          - w.amount))).accounts.length := by
    rw [update_balance_length]; exact h1
  have hnonce2 : (tree2.accounts.getD w.account_id emptyAccount).nonce
      = usize_to_fr w.nonce := by
    rw [htree2, update_account_getD _ _ _ _ hlen1]
  have hne : fr_to_usize (tree2.accounts.getD w.account_id emptyAccount).nonce
      ≠ w.nonce - 1 := by
    rw [hnonce2, fr_usize_roundtrip _ hu]
    omega
  refine ⟨hne, ?_⟩
  simp only [OffchainWithdrawal.update_tree_and_record_state]
  split_ifs with g1 g2 g3
  · exact absurd g3.2 hne
  all_goals rfl

/-- C10: a withdrawal whose nonce is `0` can never be applied: the nonce
assertion compares against `nonce - 1` computed on a `usize`, which
underflows, so the call aborts at or before the nonce check for every tree,
and no mutated tree is ever produced. -/
theorem update_tree_and_record_state_nonce_zero_never_succeeds {Sig : Type}
    (w : OffchainWithdrawal Sig) (tree : AccountsTree)
    (h : w.nonce = 0) :
    w.update_tree_and_record_state tree = none := by
  simp only [OffchainWithdrawal.update_tree_and_record_state]
  split_ifs with h1 h2 h3
  · exact absurd h3.1 (by omega)
  all_goals rfl

/-- Witness for C1: the preconditions hold for `w0` on `tree0`, the apply
step succeeds, and the concrete scenario values come out as the spec states
(old balance 100, new balance 60, new nonce 4). -/
theorem update_tree_and_record_state_happy_path_witness :
    (∃ st tree2, w0.update_tree_and_record_state tree0 = some (st, tree2)) ∧
    (w0.update_tree_and_record_state tree0).map
        (fun r => (r.1.old_balance, r.1.new_balance, r.1.new_nonce,
          (r.2.accounts.getD 5 emptyAccount).balance,
          (r.2.accounts.getD 5 emptyAccount).nonce))
      = some (some 100, some 60, some 4, 60, 4) := by
  constructor
  · obtain ⟨st, t2, h, -⟩ := update_tree_and_record_state_happy_path w0 tree0
      (by decide) (by decide) (by decide) (by decide)
    exact ⟨st, t2, h⟩
  · decide

/-- Witness for C5: the insufficient-balance withdrawal `wbad` violates the
preconditions on `tree0` and the apply step fails without producing a tree. -/
theorem update_tree_and_record_state_rejects_bad_preconditions_witness :
    ¬ (wbad.account_id < tree0.accounts.length ∧
        wbad.amount ≤
          fr_to_usize
            (tree0.accounts.getD wbad.account_id emptyAccount).balance ∧
        1 ≤ wbad.nonce ∧
        fr_to_usize (tree0.accounts.getD wbad.account_id emptyAccount).nonce
          = wbad.nonce - 1) ∧
    wbad.update_tree_and_record_state tree0 = none :=
  ⟨by decide,
    update_tree_and_record_state_rejects_bad_preconditions wbad tree0
      (by decide)⟩

/-- Witness for C6: applying `w0` to `tree0` succeeds and yields `tree20`;
replaying the identical withdrawal object on `tree20` violates the nonce
precondition and fails. -/
theorem update_tree_and_record_state_replay_fails_witness :
    w0.update_tree_and_record_state tree0 = some (st0, tree20) ∧
    (fr_to_usize (tree20.accounts.getD w0.account_id emptyAccount).nonce
        ≠ w0.nonce - 1 ∧
      w0.update_tree_and_record_state tree20 = none) :=
  ⟨rfl,
    update_tree_and_record_state_replay_fails w0 tree0 st0 tree20
      (by decide) rfl⟩

/-- Witness for C10: the nonce-`0` withdrawal `wz` fails on `tree0`. -/
theorem update_tree_and_record_state_nonce_zero_never_succeeds_witness :
    wz.nonce = 0 ∧ wz.update_tree_and_record_state tree0 = none :=
  ⟨rfl, update_tree_and_record_state_nonce_zero_never_succeeds wz tree0 rfl⟩

/-- C7: signing a withdrawal and then verifying with the corresponding
public key, the same hash parameters and the same curve parameters succeeds:
both operations compute the identical Poseidon digest of
`(account_id, amount, nonce)`, serialize it to the identical 31-byte
little-endian encoding, and use the identical spending-key fixed generator,
so the collaborator primitive's completeness contract (here a hypothesis:
a signature produced by `seckey` verifies under the corresponding `pubkey`
on the same message, generator and parameters) yields `some true`. -/
theorem sign_then_verify_succeeds {Sig SK PK R HP CP : Type}
    (sign_raw_message : SK → List Nat → R → FixedGenerators → CP → Nat → Sig)
    (verify_for_raw_message :
      PK → List Nat → Sig → FixedGenerators → CP → Nat → Bool)
    (phash : HP → List Nat → Nat)
    (seckey : SK) (pubkey : PK)
    (hcomplete : ∀ (msg : List Nat) (rng : R) (gen : FixedGenerators)
      (cp : CP) (nb : Nat),
      verify_for_raw_message pubkey msg
        (sign_raw_message seckey msg rng gen cp nb) gen cp nb = true)
    (w : OffchainWithdrawal Sig) (hash_params : HP) (sign_params : CP)
    (rng : R) :
    (w.sign_op sign_raw_message phash seckey hash_params sign_params
        rng).verify_signature
      verify_for_raw_message phash pubkey hash_params sign_params
      = some true := by
  simp [OffchainWithdrawal.sign_op, OffchainWithdrawal.verify_signature,
    OffchainWithdrawal.hash, hcomplete]

/-- C8: `verify_signature` returns the primitive's boolean verdict wrapped
in `some` whenever a signature is stored (in particular `some false`, not an
error, for a cryptographically invalid signature), and aborts — `none`, the
embedding of the `unwrap` panic — whenever no signature was ever attached. -/
theorem verify_signature_false_or_panic {Sig PK HP CP : Type}
    (verify_for_raw_message :
      PK → List Nat → Sig → FixedGenerators → CP → Nat → Bool)
    (phash : HP → List Nat → Nat)
    (pubkey : PK) (hash_params : HP) (sign_params : CP)
    (w : OffchainWithdrawal Sig) :
    (w.sign = none →
      w.verify_signature verify_for_raw_message phash pubkey hash_params
        sign_params = none) ∧
    (∀ s, w.sign = some s →
      w.verify_signature verify_for_raw_message phash pubkey hash_params
        sign_params
        = some (verify_for_raw_message pubkey
            (fr_to_bytes_le (w.hash phash hash_params) NUM_BYTES_TO_SIGN) s
            FixedGenerators.SpendingKeyGenerator sign_params
            NUM_BYTES_TO_SIGN)) := by
  constructor
  · intro h
    simp [OffchainWithdrawal.verify_signature, h]
  · intro s h
    simp [OffchainWithdrawal.verify_signature, h]

/-- Witness for C7: with a trivial instantiation of the collaborator
primitives (a signature is the message itself; verification compares),
signing `wsig` and verifying returns `some true`. -/
theorem sign_then_verify_succeeds_witness :
    (wsig.sign_op (fun _ msg _ _ _ _ => msg) (fun _ _ => 0) 0 () ()
        ()).verify_signature
      (fun _ msg s _ _ _ => msg == s) (fun _ _ => 0) (0 : Nat) () ()
      = some true :=
  sign_then_verify_succeeds (fun _ msg _ _ _ _ => msg)
    (fun _ msg s _ _ _ => msg == s) (fun _ _ => 0) 0 0
    (by intro msg rng gen cp nb; simp) wsig () () ()

/-- Witness for C8: with a primitive that rejects everything,
`verify_signature` returns `none` on the unsigned `w0` (panic) and
`some false` on the signed `wsigned` (boolean rejection). -/
theorem verify_signature_false_or_panic_witness :
    w0.verify_signature (fun (_ : Nat) _ (_ : Unit) _ (_ : Unit) _ => false)
        (fun _ _ => 0) 0 () () = none ∧
    wsigned.verify_signature
        (fun (_ : Nat) _ (_ : Unit) _ (_ : Unit) _ => false)
        (fun _ _ => 0) 0 () () = some false :=
  ⟨(verify_signature_false_or_panic _ _ 0 () () w0).1 rfl,
    (verify_signature_false_or_panic _ _ 0 () () wsigned).2 () rfl⟩

/-- The pair `process_deposit` returns: the Poseidon gadget's output
variable and the circuit-computed new-root variable (the last two variables
it allocates). -/
theorem process_deposit_result (d : DepositCircuit) (depth oh orr : Nat)
    (s0 : CSState) :
    (d.process_deposit depth oh orr s0).1
      = (s0.nextVar + 8 + depth + 4, s0.nextVar + 8 + depth + 5) := rfl

/-- The constraints one deposit step appends, in emission order, with the
concrete variable layout determined by the state's next free variable. -/
theorem process_deposit_constraints (d : DepositCircuit) (depth oh orr : Nat)
    (s0 : CSState) :
    (d.process_deposit depth oh orr s0).2.constraints
      = s0.constraints ++
        [Constraint.accountC
            [s0.nextVar, s0.nextVar + 1, s0.nextVar + 2, s0.nextVar + 3]
            [s0.nextVar + 4, s0.nextVar + 5, s0.nextVar + 6, s0.nextVar + 7]
            ((List.range depth).map (fun i => s0.nextVar + 8 + i)),
          Constraint.r1cs [s0.nextVar + 8 + depth] [0] [s0.nextVar + 4],
          Constraint.r1cs [s0.nextVar + 8 + depth + 1] [0] [s0.nextVar + 5],
          Constraint.decompC (s0.nextVar + 8 + depth + 2)
            ((List.range depth).map (fun i => s0.nextVar + 8 + i)),
          Constraint.r1cs [s0.nextVar + 3, s0.nextVar + 8 + depth + 3] [0]
            [s0.nextVar + 7],
          Constraint.r1cs [s0.nextVar + 2] [0] [s0.nextVar + 6],
          Constraint.poseidonC (s0.nextVar + 8 + depth + 4)
            [oh, s0.nextVar + 8 + depth, s0.nextVar + 8 + depth + 1,
              s0.nextVar + 8 + depth + 2, s0.nextVar + 8 + depth + 3],
          Constraint.oldRootC orr
            [s0.nextVar, s0.nextVar + 1, s0.nextVar + 2, s0.nextVar + 3]
            ((List.range depth).map (fun i => s0.nextVar + 8 + i)),
          Constraint.newRootC (s0.nextVar + 8 + depth + 5)
            [s0.nextVar + 4, s0.nextVar + 5, s0.nextVar + 6, s0.nextVar + 7]
            ((List.range depth).map (fun i => s0.nextVar + 8 + i))] := by
  simp [DepositCircuit.process_deposit, AccountCircuit.new, allocVar,
    enforce, addConstraint, check_decomposition_le, poseidon_hash_gadget,
    AccountCircuit.verify_old_root, AccountCircuit.calc_new_root,
    inputize, List.append_assoc]

/-- The source's loop over the queue computes the spec's explicit
accumulator-passing fold. -/
theorem synthLoop_eq_depositChain (depth : Nat) (queue : List DepositCircuit)
    (hr : Nat × Nat) (s : CSState) :
    synthLoop depth queue hr s = depositChain depth queue hr s := by
  induction queue generalizing hr s with
  | nil => rfl
  | cons d rest ih =>
    simp only [synthLoop, List.foldl_cons, depositChain]
    have h := ih (d.process_deposit depth hr.1 hr.2 s).1
      (d.process_deposit depth hr.1 hr.2 s).2
    simpa [synthLoop] using h

/-- A deposit step allocates no public input. -/
theorem process_deposit_inputs (d : DepositCircuit) (depth oh orr : Nat)
    (s0 : CSState) :
    (d.process_deposit depth oh orr s0).2.inputs = s0.inputs := rfl

/-- The deposit fold allocates no public input. -/
theorem depositChain_inputs (depth : Nat) (queue : List DepositCircuit)
    (hr : Nat × Nat) (s : CSState) :
    (depositChain depth queue hr s).2.inputs = s.inputs := by
  induction queue generalizing hr s with
  | nil => rfl
  | cons d rest ih =>
    simp only [depositChain]
    rw [ih, process_deposit_inputs]

/-- C2: under the entry assertion, `synthesize` allocates exactly four
public inputs — variables `1, 2, 3, 4`: old accumulator hash, new
accumulator hash, old account root, new account root, in that order; the
final state is the explicit spec fold `depositChain` threading each step's
returned `(hash, root)` into the next step's `(old_hash, old_root)` starting
from the old-hash and old-root variables, followed by the two equality
constraints binding the running hash and root to the new-hash and new-root
input variables; consequently, with an empty queue, any satisfying
assignment gives the old and new accumulator-hash inputs equal values and
the old and new root inputs equal values (as field elements). -/
theorem deposit_batch_synthesize_public_inputs_and_chain
    (b : DepositBatchCircuit)
    (hlen : b.deposit_batch = b.deposit_queue.length) :
    ∃ s1, b.synthesize initState = some s1 ∧
      s1.inputs = [1, 2, 3, 4] ∧
      s1 = (let r := depositChain b.account_depth b.deposit_queue (1, 3)
              ⟨5, [1, 2, 3, 4], []⟩
            enforce [r.1.2] [0] [4] (enforce [r.1.1] [0] [2] r.2)) ∧
      (b.deposit_queue = [] → ∀ g asn, Satisfies g asn s1 →
        asn 1 % pBN = asn 2 % pBN ∧ asn 3 % pBN = asn 4 % pBN) := by
  have hsyn : b.synthesize initState
      = some (enforce
          [(synthLoop b.account_depth b.deposit_queue (1, 3)
              ⟨5, [1, 2, 3, 4], []⟩).1.2] [0] [4]
          (enforce
            [(synthLoop b.account_depth b.deposit_queue (1, 3)
                ⟨5, [1, 2, 3, 4], []⟩).1.1] [0] [2]
            (synthLoop b.account_depth b.deposit_queue (1, 3)
              ⟨5, [1, 2, 3, 4], []⟩).2)) := by
    unfold DepositBatchCircuit.synthesize
    rw [if_pos hlen]
    rfl
  refine ⟨_, hsyn, ?_, ?_, ?_⟩
  · simp [enforce, addConstraint, synthLoop_eq_depositChain,
      depositChain_inputs]
  · rw [synthLoop_eq_depositChain]
  · intro hq g asn hsat
    rw [hq] at hsat
    obtain ⟨h0, hall⟩ := hsat
    have h1 := hall (Constraint.r1cs [1] [0] [2])
      (by simp [enforce, addConstraint, synthLoop])
    have h2 := hall (Constraint.r1cs [3] [0] [4])
      (by simp [enforce, addConstraint, synthLoop])
    simp [constraintHolds, evalLC, h0] at h1 h2
    exact ⟨h1, h2⟩

/-- C3: every assignment satisfying the constraints emitted by one deposit
step satisfies, as field equations, `old_leaf[3] + amount = new_leaf[3]`
(balance, slot 3) and `old_leaf[2] = new_leaf[2]` (nonce, slot 2), where the
leaf slots are the account gadget's old- and new-leaf allocations and the
amount is the fourth variable allocated after the gadget. -/
theorem process_deposit_balance_and_nonce_equations (g : GadgetSem)
    (asn : Nat → Nat) (d : DepositCircuit)
    (depth old_hash old_root : Nat) (s0 : CSState)
    (h : Satisfies g asn (d.process_deposit depth old_hash old_root s0).2) :
    (asn ((AccountCircuit.new depth s0).1.old_leaf_alloc.getD 3 0)
        + asn ((AccountCircuit.new depth s0).2.nextVar + 3)) % pBN
      = asn ((AccountCircuit.new depth s0).1.new_leaf_alloc.getD 3 0)
        % pBN ∧
    asn ((AccountCircuit.new depth s0).1.old_leaf_alloc.getD 2 0) % pBN
      = asn ((AccountCircuit.new depth s0).1.new_leaf_alloc.getD 2 0)
        % pBN := by
  obtain ⟨h0, hall⟩ := h
  have hb := hall
    (Constraint.r1cs [s0.nextVar + 3, s0.nextVar + 8 + depth + 3] [0]
      [s0.nextVar + 7])
    (by rw [process_deposit_constraints]; simp)
  have hn := hall
    (Constraint.r1cs [s0.nextVar + 2] [0] [s0.nextVar + 6])
    (by rw [process_deposit_constraints]; simp)
  simp [constraintHolds, evalLC, h0] at hb hn
  exact ⟨hb, hn⟩

/-- C4: under every satisfying assignment, the first component of the pair
`process_deposit` returns carries the in-circuit Poseidon hash of exactly
`(old_hash, pubkey_x, pubkey_y, account_id, amount)` in that order (the four
variables allocated right after the account gadget), making the chained
accumulator order-sensitive in these inputs. -/
theorem process_deposit_accumulator_hash (g : GadgetSem) (asn : Nat → Nat)
    (d : DepositCircuit) (depth old_hash old_root : Nat) (s0 : CSState)
    (h : Satisfies g asn (d.process_deposit depth old_hash old_root s0).2) :
    asn (d.process_deposit depth old_hash old_root s0).1.1 % pBN
      = g.poseidonF
          [asn old_hash, asn (s0.nextVar + 8 + depth),
            asn (s0.nextVar + 8 + depth + 1),
            asn (s0.nextVar + 8 + depth + 2),
            asn (s0.nextVar + 8 + depth + 3)] % pBN := by
  obtain ⟨h0, hall⟩ := h
  have hp := hall
    (Constraint.poseidonC (s0.nextVar + 8 + depth + 4)
      [old_hash, s0.nextVar + 8 + depth, s0.nextVar + 8 + depth + 1,
        s0.nextVar + 8 + depth + 2, s0.nextVar + 8 + depth + 3])
    (by rw [process_deposit_constraints]; simp)
  simp [constraintHolds] at hp
  rw [process_deposit_result]
  simpa using hp

/-- Counterexample to C9 as stated: `synthesize` does check the declared
batch size against the queue length — on a batch declaring size `1` with an
empty queue it fails at the entry assertion (before allocating anything),
rather than proceeding unchecked. -/
theorem synthesize_does_check_batch_length :
    bMismatch.deposit_batch ≠ bMismatch.deposit_queue.length ∧
    bMismatch.synthesize initState = none := by
  exact ⟨by decide, rfl⟩

/-- C9 (amended): the invariant `deposit_queue.length == deposit_batch` is
enforced by `synthesize` itself, as a fatal runtime assertion at entry (not
as a circuit constraint): whenever the declared batch size differs from the
queue length, synthesis aborts. -/
theorem synthesize_batch_length_mismatch_fails (b : DepositBatchCircuit)
    (s : CSState) (h : b.deposit_batch ≠ b.deposit_queue.length) :
    b.synthesize s = none := by
  unfold DepositBatchCircuit.synthesize
  rw [if_neg h]

/-- Witness for the amended C9 at the concrete mismatched batch. -/
theorem synthesize_batch_length_mismatch_fails_witness :
    bMismatch.deposit_batch ≠ bMismatch.deposit_queue.length ∧
    bMismatch.synthesize initState = none :=
  ⟨by decide,
    synthesize_batch_length_mismatch_fails bMismatch initState (by decide)⟩

/-- Witness for C2: the empty batch satisfies the length assertion,
synthesis succeeds, and the public inputs are exactly the four variables in
order. -/
theorem deposit_batch_synthesize_public_inputs_and_chain_witness :
    bEmpty.deposit_batch = bEmpty.deposit_queue.length ∧
    ∃ s1, bEmpty.synthesize initState = some s1 ∧ s1.inputs = [1, 2, 3, 4] :=
  ⟨rfl,
    match deposit_batch_synthesize_public_inputs_and_chain bEmpty rfl with
    | ⟨s1, h1, h2, _, _⟩ => ⟨s1, h1, h2⟩⟩

/-- Witness for C3: the all-zero assignment satisfies the constraints of a
concrete deposit step under the trivial gadget semantics, and the balance
and nonce equations hold for it. -/
theorem process_deposit_balance_and_nonce_equations_witness :
    Satisfies g0 asn0 (d0.process_deposit 1 0 0 initState).2 ∧
    ((asn0 ((AccountCircuit.new 1 initState).1.old_leaf_alloc.getD 3 0)
        + asn0 ((AccountCircuit.new 1 initState).2.nextVar + 3)) % pBN
      = asn0 ((AccountCircuit.new 1 initState).1.new_leaf_alloc.getD 3 0)
        % pBN ∧
    asn0 ((AccountCircuit.new 1 initState).1.old_leaf_alloc.getD 2 0) % pBN
      = asn0 ((AccountCircuit.new 1 initState).1.new_leaf_alloc.getD 2 0)
        % pBN) :=
  ⟨by unfold Satisfies; decide,
    process_deposit_balance_and_nonce_equations g0 asn0 d0 1 0 0 initState
      (by unfold Satisfies; decide)⟩

/-- Witness for C4: under the same concrete data, the returned hash variable
carries the gadget Poseidon value of the five chained inputs. -/
theorem process_deposit_accumulator_hash_witness :
    Satisfies g0 asn0 (d0.process_deposit 1 0 0 initState).2 ∧
    asn0 (d0.process_deposit 1 0 0 initState).1.1 % pBN
      = g0.poseidonF
          [asn0 0, asn0 (initState.nextVar + 8 + 1),
            asn0 (initState.nextVar + 8 + 1 + 1),
            asn0 (initState.nextVar + 8 + 1 + 2),
            asn0 (initState.nextVar + 8 + 1 + 3)] % pBN :=
  ⟨by unfold Satisfies; decide,
    process_deposit_accumulator_hash g0 asn0 d0 1 0 0 initState
      (by unfold Satisfies; decide)⟩
